import Mathlib

/-!
Verification of the event-routing and widget-state logic of the sdlw widget
toolkit (src/sdlwin.hpp, src/sdlwin.cpp).

The implementation file src/sdlwin.cpp uses a three-valued
Component::EventStatus and a Panel helper multihandleEvent whose declarations
belong to a newer revision of the header that is not among the sources
(src/sdlwin.hpp is the older boolean revision).  Those two items are modelled
from the specification (spec sections 4.1 and 4.2); everything else is
translated directly from the source files, with the citation given in each
doc comment.
-/

namespace Sdlw


/-- Modelled from the spec: the three-valued event status of spec section 4.1.
The enum declaration lives in the header revision missing from the sources;
src/sdlwin.cpp uses it in truth tests, and per spec sections 4.1 and 5 the
falsy value is IGNORED while HANDLED and FORWARDED are truthy. -/
inductive EventStatus
  | IGNORED
  | FORWARDED
  | HANDLED
deriving DecidableEq

/-- Truthiness of an EventStatus in a C++ condition such as
sdlwin.cpp:270 `if (Panel::handleEvent(event))`: IGNORED is the zero value. -/
def EventStatus.toBool : EventStatus → Bool
  | .IGNORED => false
  | .FORWARDED => true
  | .HANDLED => true

/-- Strength of a status under the ordering HANDLED > FORWARDED > IGNORED
(spec section 4.2). -/
def EventStatus.strength : EventStatus → Nat
  | .IGNORED => 0
  | .FORWARDED => 1
  | .HANDLED => 2

/-- The stronger of two statuses. -/
def statusMax (a b : EventStatus) : EventStatus :=
  if a.strength < b.strength then b else a

/-- Modelled from the spec: multihandleEvent, called by Panel::handleEvent
(sdlwin.cpp:224) but defined in the header revision missing from the sources.
Per spec section 4.2 it offers the event to each child in list order, stops at
the first child returning HANDLED, and reports the strongest status seen
(HANDLED > FORWARDED > IGNORED).  A child is represented by the status it
would return for the event; the second component of the result counts how
many children were offered the event. -/
def multihandleEvent : List EventStatus → EventStatus × Nat
  | [] => (.IGNORED, 0)
  | s :: rest =>
    if s = .HANDLED then (.HANDLED, 1)
    else
      let r := multihandleEvent rest
      (statusMax s r.1, r.2 + 1)

/-- Panel::handleEvent (sdlwin.cpp:222-229): a hidden panel ignores the event,
a visible one delegates to multihandleEvent over its children. -/
def Panel.handleEvent (shown : Bool) (children : List EventStatus) :
    EventStatus × Nat :=
  if !shown then (.IGNORED, 0) else multihandleEvent children

/-- Number of children a conforming container offers the event to: the prefix
up to and including the first child answering HANDLED, or all children when
none does. -/
def offeredCount (l : List EventStatus) : Nat :=
  min ((l.takeWhile (fun s => !(s == EventStatus.HANDLED))).length + 1) l.length

/-- The strongest status in a list (IGNORED when empty). -/
def strongestStatus (l : List EventStatus) : EventStatus :=
  l.foldr statusMax .IGNORED

/-! ## ScrollPanel (sdlwin.cpp:262-300, sdlwin.hpp:185-203) -/

/-- sgn (sdlwin.cpp:6): note the inverted convention, `(x < 0) - (x > 0)`. -/
def sgn (x : Int) : Int :=
  (if x < 0 then 1 else 0) - (if x > 0 then 1 else 0)

/-- The ScrollPanel state relevant to scrolling: visibility, the window start
index and size (sdlwin.hpp:187), and the number of owned children. -/
structure ScrollPanelState where
  shown : Bool
  index : Int
  numShown : Int
  childCount : Nat
deriving DecidableEq

/-- An event as seen by ScrollPanel::handleEvent: either a mouse-wheel event
with its vertical delta or any other event, in both cases together with the
statuses the panel's children would answer during the base Panel pass. -/
inductive ScrollEvent
  | wheel (y : Int) (children : List EventStatus)
  | other (children : List EventStatus)

/-- The child statuses carried by a ScrollEvent. -/
def ScrollEvent.children : ScrollEvent → List EventStatus
  | .wheel _ cs => cs
  | .other cs => cs

/-- ScrollPanel::handleEvent (sdlwin.cpp:268-279): hidden panels ignore the
event; if the base Panel pass is truthy the panel returns HANDLED at once;
non-wheel events are then ignored; a wheel event shifts the window start by
sgn of the delta when the shifted window stays inside the child list, and
returns HANDLED either way. -/
def ScrollPanel.handleEvent (sp : ScrollPanelState) (e : ScrollEvent) :
    ScrollPanelState × EventStatus :=
  if !sp.shown then (sp, .IGNORED)
  else if (Panel.handleEvent sp.shown e.children).1.toBool then (sp, .HANDLED)
  else
    match e with
    | .other _ => (sp, .IGNORED)
    | .wheel y _ =>
      let offset := sgn y
      if sp.index + offset ≥ 0 ∧
          sp.index + offset + sp.numShown ≤ (sp.childCount : Int) then
        ({ sp with index := sp.index + offset }, .HANDLED)
      else (sp, .HANDLED)

/-- The state after a sequence of events. -/
def ScrollPanel.run (sp : ScrollPanelState) (es : List ScrollEvent) :
    ScrollPanelState :=
  es.foldl (fun s e => (ScrollPanel.handleEvent s e).1) sp

/-- The scroll-window invariant of spec section 3. -/
def scrollInv (sp : ScrollPanelState) : Prop :=
  0 ≤ sp.index ∧ sp.index + sp.numShown ≤ (sp.childCount : Int)

instance (sp : ScrollPanelState) : Decidable (scrollInv sp) := by
  unfold scrollInv; infer_instance

/-! ## Slider (sdlwin.hpp:299-342, sdlwin.cpp:425-499) -/

/-- An SDL_Rect: integer x, y, w, h. -/
structure SRect where
  x : Int
  y : Int
  w : Int
  h : Int
deriving DecidableEq

/-- std::round applied to the slider arithmetic (the float value is idealised
as a rational): round half away from zero. -/
def roundAway (q : ℚ) : Int :=
  if 0 ≤ q then ⌊q + 1 / 2⌋ else -⌊-q + 1 / 2⌋

/-- Slider state (sdlwin.hpp:303-307). -/
structure SliderState where
  rect : SRect
  sliderRect : SRect
  vertical : Bool
  min : Int
  max : Int
  step : Int
  val : ℚ
  dragging : Bool

/-- Slider::makeSliderRect (sdlwin.cpp:465-470). -/
def makeSliderRect (rect : SRect) (vertical : Bool) (w : Int) : SRect :=
  if vertical then ⟨rect.x - w / 2, rect.y, rect.w + w, w⟩
  else ⟨rect.x, rect.y - w / 2, w, rect.h + w⟩

/-- The Slider constructor (sdlwin.hpp:310-315): the value starts at min. -/
def mkSlider (rect : SRect) (mn mx st : Int) (vertical : Bool)
    (slidRectWidth : Int) : SliderState :=
  { rect := rect, sliderRect := makeSliderRect rect vertical slidRectWidth,
    vertical := vertical, min := mn, max := mx, step := st,
    val := (mn : ℚ), dragging := false }

/-- Slider::valPxCount (sdlwin.hpp:319-321). -/
def SliderState.valPxCount (s : SliderState) : Int :=
  if s.vertical then s.rect.h - s.sliderRect.h else s.rect.w - s.sliderRect.w

/-- Slider::stepn (sdlwin.hpp:318). -/
def SliderState.stepn (s : SliderState) : Int :=
  roundAway ((s.val - (s.min : ℚ)) / (s.step : ℚ))

/-- Slider::trueVal (sdlwin.hpp:317): the quantized observable value. -/
def SliderState.trueVal (s : SliderState) : Int :=
  s.stepn * s.step + s.min

/-- Slider::pps, pixels per step (sdlwin.hpp:334). -/
def SliderState.pps (s : SliderState) : ℚ :=
  ((s.valPxCount : ℚ) / ((s.max : ℚ) - (s.min : ℚ))) * (s.step : ℚ)

/-- Slider::upp, units per pixel (sdlwin.hpp:336). -/
def SliderState.upp (s : SliderState) : ℚ :=
  ((s.max : ℚ) - (s.min : ℚ)) / (s.valPxCount : ℚ)

/-- Slider::capVal (sdlwin.cpp:494-499). -/
def SliderState.capVal (s : SliderState) : SliderState :=
  if s.val > (s.max : ℚ) then { s with val := ((s.max : ℚ)) }
  else if s.val < (s.min : ℚ) then { s with val := ((s.min : ℚ)) }
  else s

/-- Slider::dragDiff (sdlwin.cpp:481-492): add the pixel delta along the axis
scaled by units-per-pixel, clamp, and reposition the handle from the
quantized value. -/
def SliderState.dragDiff (s : SliderState) (dpx dpy : Int) : SliderState :=
  if s.vertical then
    let s1 := ({ s with val := s.val + (dpy : ℚ) * s.upp }).capVal
    { s1 with sliderRect :=
        { s1.sliderRect with y := s1.rect.y + roundAway ((s1.stepn : ℚ) * s1.pps) } }
  else
    let s1 := ({ s with val := s.val + (dpx : ℚ) * s.upp }).capVal
    { s1 with sliderRect :=
        { s1.sliderRect with x := s1.rect.x + roundAway ((s1.stepn : ℚ) * s1.pps) } }

/-- Slider::setVal (sdlwin.hpp:325). -/
def SliderState.setVal (s : SliderState) (newVal : Int) : SliderState :=
  ({ s with val := (newVal : ℚ) }).dragDiff 0 0

/-- Slider::setStepNo (sdlwin.hpp:326-328). -/
def SliderState.setStepNo (s : SliderState) (newStep : Int) : SliderState :=
  ({ s with val := (s.min : ℚ) + (newStep : ℚ) * (s.step : ℚ) }).dragDiff 0 0

/-- The value-changing slider operations: setVal, setStepNo, and a drag
motion sample routed to dragDiff by Slider::handleEvent (sdlwin.cpp:435-440). -/
inductive SliderOp
  | setVal (n : Int)
  | setStepNo (n : Int)
  | drag (dx dy : Int)

def SliderState.applyOp (s : SliderState) : SliderOp → SliderState
  | .setVal n => s.setVal n
  | .setStepNo n => s.setStepNo n
  | .drag dx dy => s.dragDiff dx dy

def SliderState.runOps (s : SliderState) (ops : List SliderOp) : SliderState :=
  ops.foldl SliderState.applyOp s

/-- Well-formedness carried along a slider run: the range parameters are
fixed and the raw value is clamped inside them. -/
def sliderWF (s : SliderState) (mn mx st : Int) : Prop :=
  s.min = mn ∧ s.max = mx ∧ s.step = st ∧
  (mn : ℚ) ≤ s.val ∧ s.val ≤ (mx : ℚ)

/-! ## TextInput (sdlwin.hpp:344-372, sdlwin.cpp:611-698) -/

/-- SDL_PointInRect, used by Component::posInside (sdlwin.hpp:137). -/
def posInside (r : SRect) (px py : Int) : Bool :=
  decide (r.x ≤ px ∧ px < r.x + r.w ∧ r.y ≤ py ∧ py < r.y + r.h)

/-- The keys recognised by TextInput::handleKey (sdlwin.cpp:648-681); the
three SDL enter/return key codes all behave alike and are one constructor. -/
inductive Key
  | left
  | right
  | home
  | endKey
  | delete
  | backspace
  | enter
  | otherKey

/-- An event as seen by TextInput::handleEvent (sdlwin.cpp:627-646). -/
inductive TEvent
  | mouseDown (px py clicks : Int)
  | textIn (c : Char)
  | keyDown (k : Key)
  | otherEv

/-- TextInput state (sdlwin.hpp:347-351).  The emitted list records the
successive arguments passed to the onConfirm callback; hasConfirm tells
whether a callback is installed. -/
structure TextInputState where
  rect : SRect
  text : List Char
  caretPos : Int
  active : Bool
  autoHide : Bool
  shown : Bool
  hasConfirm : Bool
  emitted : List (List Char)

/-- Component::thisWasClicked (sdlwin.cpp:208-213): the click count of a
mouse press inside the rectangle, 0 otherwise. -/
def TextInputState.thisWasClicked (st : TextInputState) : TEvent → Int
  | .mouseDown px py clicks => if posInside st.rect px py then clicks else 0
  | _ => 0

/-- Component::clickOutside (sdlwin.cpp:215-220). -/
def TextInputState.clickOutside (st : TextInputState) : TEvent → Int
  | .mouseDown px py clicks => if posInside st.rect px py then 0 else clicks
  | _ => 0

/-- TextInput::activate (sdlwin.cpp:611-616). -/
def TextInputState.activate (st : TextInputState) : TextInputState :=
  let st1 := { st with active := true }
  if st1.autoHide then { st1 with shown := true } else st1

/-- TextInput::deactivate (sdlwin.cpp:618-625): clear the active flag, hide
when auto-hiding, and invoke the confirm callback (when set) with the
current text. -/
def TextInputState.deactivate (st : TextInputState) : TextInputState :=
  let st1 := { st with active := false }
  let st2 := if st1.autoHide then { st1 with shown := false } else st1
  if st2.hasConfirm then { st2 with emitted := st2.emitted ++ [st2.text] } else st2

/-- TextInput::deleteChar (sdlwin.cpp:690-693).  The C++ parameter is a
size_t converted from an int caller value; the source's explicit
`index < 0` guard is kept meaningful by using Int here — for any text
shorter than 2^64 characters the converted-size_t reading rejects the same
calls through the length test. -/
def TextInputState.deleteChar (st : TextInputState) (index : Int) : TextInputState :=
  if index < 0 ∨ (st.text.length : Int) ≤ index then st
  else { st with text := st.text.take index.toNat ++ st.text.drop (index.toNat + 1) }

/-- TextInput::insertChar (sdlwin.cpp:695-698), same parameter convention as
deleteChar. -/
def TextInputState.insertChar (st : TextInputState) (c : Char) (index : Int) :
    TextInputState :=
  if index < 0 ∨ (st.text.length : Int) < index then st
  else { st with text := st.text.take index.toNat ++ [c] ++ st.text.drop index.toNat }

/-- The caret clamp at the end of TextInput::handleKey (sdlwin.cpp:676-679):
a negative caret becomes 0, a caret past the end becomes the length. -/
def TextInputState.clampCaret (st : TextInputState) : TextInputState :=
  let st2 := if st.caretPos < 0 then { st with caretPos := 0 } else st
  if st2.caretPos > (st2.text.length : Int) then
    { st2 with caretPos := ((st2.text.length : Int)) }
  else st2

/-- TextInput::handleKey (sdlwin.cpp:648-681): unrecognised keys return false
without touching the state; recognised keys run their action and then clamp
the caret into [0, length]. -/
def TextInputState.handleKey (st : TextInputState) (k : Key) :
    TextInputState × Bool :=
  match k with
  | .left => (({ st with caretPos := st.caretPos - 1 } : TextInputState).clampCaret, true)
  | .right => (({ st with caretPos := st.caretPos + 1 } : TextInputState).clampCaret, true)
  | .home => (({ st with caretPos := 0 } : TextInputState).clampCaret, true)
  | .endKey =>
    (({ st with caretPos := ((st.text.length : Int)) } : TextInputState).clampCaret, true)
  | .delete => ((st.deleteChar st.caretPos).clampCaret, true)
  | .backspace =>
    ((({ st with caretPos := st.caretPos - 1 } : TextInputState).deleteChar
        (st.caretPos - 1)).clampCaret, true)
  | .enter => (st.deactivate.clampCaret, true)
  | .otherKey => (st, false)

/-- TextInput::handleEvent (sdlwin.cpp:627-646). -/
def TextInputState.handleEvent (st : TextInputState) (e : TEvent) :
    TextInputState × EventStatus :=
  if st.shown = false then (st, .IGNORED)
  else if st.active = false ∧ st.thisWasClicked e ≠ 0 then (st.activate, .HANDLED)
  else if st.active = true then
    if st.clickOutside e ≠ 0 then (st.deactivate, .IGNORED)
    else
      match e with
      | .textIn c =>
        let st1 := st.insertChar c st.caretPos
        ({ st1 with caretPos := st.caretPos + 1 }, .HANDLED)
      | .keyDown k =>
        let r := st.handleKey k
        (r.1, if r.2 then .HANDLED else .IGNORED)
      | _ => (st, .IGNORED)
  else (st, .IGNORED)

/-- The state after a sequence of events. -/
def TextInputState.run (st : TextInputState) (es : List TEvent) : TextInputState :=
  es.foldl (fun s e => (s.handleEvent e).1) st

/-- The caret invariant of spec section 3. -/
def caretInv (st : TextInputState) : Prop :=
  0 ≤ st.caretPos ∧ st.caretPos ≤ (st.text.length : Int)

/-! ## Dropdown (sdlwin.cpp:700-856) -/

/-- A Dropdown row decorator (Dropdown::MiniPanel): the wrapped row is
identified here by a payload tag, and the decorator remembers its position
index, assigned on insertion (sdlwin.cpp:784). -/
structure MiniPanel where
  payload : Nat
  index : Int
deriving DecidableEq

/-- Dropdown::reindex (sdlwin.cpp:852-856): set the remembered index of every
row at a position from the given start onwards to that position. -/
def Dropdown.reindex (elems : List MiniPanel) (start : Int) : List MiniPanel :=
  elems.mapIdx (fun i mp =>
    if start ≤ (i : Int) then { mp with index := ((i : Int)) } else mp)

/-- Dropdown::removeAt (sdlwin.cpp:792-797): erase the row at a valid
position and renumber the rows after it; out-of-range positions are a
no-op. -/
def Dropdown.removeAt (elems : List MiniPanel) (index : Int) : List MiniPanel :=
  if 0 ≤ index ∧ index < (elems.length : Int) then
    Dropdown.reindex (elems.eraseIdx index.toNat) index
  else elems

/-- Dropdown::swapElems (sdlwin.cpp:799-811): swap the two rows, then swap
their remembered indices; any out-of-range argument is a no-op. -/
def Dropdown.swapElems (elems : List MiniPanel) (ind1 ind2 : Int) :
    List MiniPanel :=
  if ind1 < 0 ∨ ind2 < 0 ∨ (elems.length : Int) ≤ ind1 ∨
      (elems.length : Int) ≤ ind2 then
    elems
  else
    let i := ind1.toNat
    let j := ind2.toNat
    let a := elems.getD i ⟨0, 0⟩
    let b := elems.getD j ⟨0, 0⟩
    let l1 := (elems.set i b).set j a
    (l1.set i { b with index := a.index }).set j { a with index := b.index }

/-- Dropdown::addComponent (sdlwin.cpp:780-790): the new decorator remembers
the current row count as its index and is appended. -/
def Dropdown.addComponent (elems : List MiniPanel) (payload : Nat) :
    List MiniPanel :=
  elems ++ [⟨payload, ((elems.length : Int))⟩]

/-- The row mutations of a Dropdown. -/
inductive DropdownOp
  | add (payload : Nat)
  | removeAt (i : Int)
  | swapElems (i j : Int)

def Dropdown.applyOp (elems : List MiniPanel) : DropdownOp → List MiniPanel
  | .add p => Dropdown.addComponent elems p
  | .removeAt i => Dropdown.removeAt elems i
  | .swapElems i j => Dropdown.swapElems elems i j

def Dropdown.runOps (elems : List MiniPanel) (ops : List DropdownOp) :
    List MiniPanel :=
  ops.foldl Dropdown.applyOp elems

/-- The wrapped rows, in list order. -/
def Dropdown.payloads (elems : List MiniPanel) : List Nat :=
  elems.map MiniPanel.payload

/-- Every row's remembered index equals its offset in the row list
(hence no gaps and no duplicates). -/
def dropdownInv (elems : List MiniPanel) : Prop :=
  ∀ i (h : i < elems.length), (elems.get ⟨i, h⟩).index = (i : Int)

instance (elems : List MiniPanel) : Decidable (dropdownInv elems) := by
  unfold dropdownInv
  infer_instance

/-! ## Expandable (sdlwin.hpp:232-258, sdlwin.cpp:318-388) -/

/-- An event as seen by Expandable::handleEvent. -/
inductive EEvent
  | mouseDown (px py clicks : Int)
  | mouseMotion (px py : Int)
  | otherEv

/-- Expandable state: trigger rectangle, visibility and hover flags, the
expanded flag, and the owned popup panel's rectangle and visibility
(sdlwin.hpp:235-239).  The constructor hides the panel (sdlwin.cpp:325) and
setExpanded keeps the panel's visibility equal to expanded. -/
structure ExpandableState where
  rect : SRect
  shown : Bool
  hovered : Bool
  expanded : Bool
  panelRect : SRect
  panelShown : Bool
deriving DecidableEq

/-- Expandable::setExpanded (sdlwin.hpp:246): sets the flag and the popup's
visibility together. -/
def ExpandableState.setExpanded (st : ExpandableState) (v : Bool) :
    ExpandableState :=
  { st with expanded := v, panelShown := v }

/-- Component::handleHoverHL (sdlwin.cpp:199-206) on the trigger rectangle:
true exactly on a motion event crossing the hover boundary. -/
def ExpandableState.hoverChange (st : ExpandableState) : EEvent → Bool
  | .mouseMotion px py => posInside st.rect px py != st.hovered
  | _ => false

/-- Component::thisWasClicked (sdlwin.cpp:208-213) for the trigger. -/
def ExpandableState.clickedCount (st : ExpandableState) : EEvent → Int
  | .mouseDown px py clicks => if posInside st.rect px py then clicks else 0
  | _ => 0

/-- Expandable::handleEvent (sdlwin.cpp:361-376).  The popup panel's children
are abstracted by the statuses they would answer (childStatuses); the popup
pass is Panel::handleEvent, gated on the popup's visibility, and any truthy
popup result is reported as HANDLED.  A single click (count exactly 1) on the
trigger toggles expanded and is FORWARDED; otherwise a press while expanded
outside the popup closes it and is FORWARDED. -/
def ExpandableState.handleEvent (st : ExpandableState)
    (childStatuses : List EventStatus) (e : EEvent) :
    ExpandableState × EventStatus :=
  if st.shown = false then (st, .IGNORED)
  else if st.hoverChange e then ({ st with hovered := !st.hovered }, .HANDLED)
  else if (Panel.handleEvent st.panelShown childStatuses).1.toBool then
    (st, .HANDLED)
  else if st.clickedCount e = 1 then (st.setExpanded (!st.expanded), .FORWARDED)
  else
    match e with
    | .mouseDown px py _ =>
      if st.expanded = true ∧ posInside st.panelRect px py = false then
        (st.setExpanded false, .FORWARDED)
      else (st, .IGNORED)
    | _ => (st, .IGNORED)

/-! ## ColorSelect (sdlwin.hpp:374-398, sdlwin.cpp:501-609) -/

/-- isspace over the ASCII range, as used by std::stoi's strtol parse. -/
def isSpaceC (c : Char) : Bool :=
  c.toNat = 32 || (9 ≤ c.toNat && c.toNat ≤ 13)

/-- isxdigit over the ASCII range: 0-9, a-f, A-F. -/
def isHexDigitC (c : Char) : Bool :=
  (48 ≤ c.toNat && c.toNat ≤ 57) ||
  (97 ≤ c.toNat && c.toNat ≤ 102) ||
  (65 ≤ c.toNat && c.toNat ≤ 70)

/-- The numeric value of a hex digit (meaningful when isHexDigitC holds). -/
def hexDigitVal (c : Char) : Nat :=
  if c.toNat ≤ 57 then c.toNat - 48
  else if c.toNat ≤ 70 then c.toNat - 55
  else c.toNat - 87

/-- std::stoi(s, nullptr, 16) as called at sdlwin.cpp:557-559: skip leading
whitespace, read an optional sign, skip an optional 0x/0X prefix when a hex
digit follows it, then read a maximal run of hex digits; no digit at all
means std::invalid_argument (modelled as none), which setColor catches. -/
def stoi16 (s : List Char) : Option Int :=
  let s1 := s.dropWhile isSpaceC
  let neg : Bool :=
    match s1 with
    | c :: _ => c == '-'
    | [] => false
  let s2 : List Char :=
    match s1 with
    | c :: r => if c == '-' || c == '+' then r else s1
    | [] => s1
  let s3 : List Char :=
    match s2 with
    | c0 :: c1 :: r =>
      if c0 == '0' && (c1 == 'x' || c1 == 'X') &&
          (match r with | d :: _ => isHexDigitC d | [] => false) then r
      else s2
    | _ => s2
  let digits := s3.takeWhile isHexDigitC
  if digits.isEmpty then none
  else
    let v : Int := digits.foldl (fun acc c => 16 * acc + (hexDigitVal c : Int)) 0
    some (if neg then -v else v)

/-- The mutable state of a ColorSelect: the three channel sliders
(ColorSelect::finalize builds each as Slider(r, 0, 255, 1, cols, false, 13),
sdlwin.cpp:529-543) and the owned hex TextInput (sdlwin.hpp:377,
sdlwin.cpp:519-527).  Both setColor overloads (sdlwin.cpp:545-566) operate
on the sliders only and never touch the input. -/
structure ColorSelectState where
  s0 : SliderState
  s1 : SliderState
  s2 : SliderState
  input : TextInputState

/-- The state as the ColorSelect constructor produces it: the slider bank of
finalize and the TextInput of makeInput (empty text, auto-hiding and hence
hidden, inactive, confirm callback installed). -/
def ColorSelect.init : ColorSelectState :=
  ⟨mkSlider ⟨70, 30, 255, 13⟩ 0 255 1 false 13,
   mkSlider ⟨70, 65, 255, 13⟩ 0 255 1 false 13,
   mkSlider ⟨70, 100, 255, 13⟩ 0 255 1 false 13,
   ⟨⟨100, 0, 100, 30⟩, [], 0, false, true, false, true, []⟩⟩

/-- ColorSelect::setColor(Color) (sdlwin.cpp:545-548): push
(color >> (16 - 8*i)) & 0xFF into slider i; the input is untouched. -/
def ColorSelect.setColorNum (color : Nat) (cs : ColorSelectState) :
    ColorSelectState :=
  ⟨cs.s0.setVal ((((color >>> 16) &&& 255 : Nat) : Int)),
   cs.s1.setVal ((((color >>> 8) &&& 255 : Nat) : Int)),
   cs.s2.setVal ((((color >>> 0) &&& 255 : Nat) : Int)),
   cs.input⟩

/-- ColorSelect::setColor(const std::string &) (sdlwin.cpp:550-566): reject
strings shorter than 6; parse the three two-character groups with stoi in
base 16, rejecting with state untouched when any throws; compose the 24-bit
color with shifts and ors (converted to the unsigned Color on the call to
setColor(Color), hence the reduction mod 2^32); push it into the sliders and
report success. -/
def ColorSelect.setColorStr (s : List Char) (cs : ColorSelectState) :
    Bool × ColorSelectState :=
  if s.length < 6 then (false, cs)
  else
    match stoi16 (s.take 2), stoi16 ((s.drop 2).take 2),
        stoi16 ((s.drop 4).take 2) with
    | some a, some b, some c =>
      let color : Int :=
        Int.lor (Int.lor (a <<< (16 : Int)) (b <<< (8 : Int))) c
      (true, ColorSelect.setColorNum ((color % (2 : Int) ^ 32).toNat) cs)
    | _, _, _ => (false, cs)

/-- The int → char conversion at the call hex(trueVal) (sdlwin.cpp:510-512):
truncation to a signed 8-bit char, two's complement. -/
def toSChar (v : Int) : Int :=
  let m := v.emod 256
  if m < 128 then m else m - 256

/-- The digit table of ColorSelect::hex (sdlwin.cpp:574). -/
def hexChars : List Char := "0123456789ABCDEF".data

/-- hx[n]. -/
def hx (n : Nat) : Char := hexChars.getD n '0'

/-- ColorSelect::hex (sdlwin.cpp:573-576): hx[(c >> 4) & 0xF] and hx[c & 0xF]
on the sign-extended char; the arithmetic right shift is floor division by 16
and the two's-complement mask is the residue mod 16. -/
def ColorSelect.hexPair (v : Int) : List Char :=
  let c := toSChar v
  [hx (((c.fdiv 16).emod 16).toNat), hx ((c.emod 16).toNat)]

/-- ColorSelect::str (sdlwin.cpp:508-513): the two hex digits of each
channel's quantized value, concatenated. -/
def ColorSelect.str (cs : ColorSelectState) : List Char :=
  ColorSelect.hexPair cs.s0.trueVal ++ ColorSelect.hexPair cs.s1.trueVal ++
    ColorSelect.hexPair cs.s2.trueVal

/-- A valid uppercase hexadecimal digit: 0-9 or A-F. -/
def isUpperHexC (c : Char) : Bool :=
  (48 ≤ c.toNat && c.toNat ≤ 57) || (65 ≤ c.toNat && c.toNat ≤ 70)

/-- The slider-bank shape ColorSelect::finalize guarantees: each channel
slider is horizontal with range 0..255 and step 1. -/
def csWF (cs : ColorSelectState) : Prop :=
  (cs.s0.min = 0 ∧ cs.s0.max = 255 ∧ cs.s0.step = 1 ∧ cs.s0.vertical = false) ∧
  (cs.s1.min = 0 ∧ cs.s1.max = 255 ∧ cs.s1.step = 1 ∧ cs.s1.vertical = false) ∧
  (cs.s2.min = 0 ∧ cs.s2.max = 255 ∧ cs.s2.step = 1 ∧ cs.s2.vertical = false)

instance (cs : ColorSelectState) : Decidable (csWF cs) := by
  unfold csWF
  infer_instance


/-! ## Theorems -/

theorem statusMax_ignored_right (s : EventStatus) : statusMax s .IGNORED = s := by
  cases s <;> rfl

theorem multihandleEvent_spec (l : List EventStatus) :
    multihandleEvent l = (strongestStatus (l.take (offeredCount l)), offeredCount l) := by
  induction l with
  | nil => rfl
  | cons s rest ih =>
    by_cases hs : s = EventStatus.HANDLED
    · subst hs
      have hoc : offeredCount (EventStatus.HANDLED :: rest) = 1 := by
        simp [offeredCount, List.takeWhile]
      rw [hoc]
      simp [multihandleEvent, strongestStatus, statusMax, EventStatus.strength]
    · have hoc : offeredCount (s :: rest) = offeredCount rest + 1 := by
        simp only [offeredCount, List.takeWhile, List.length_cons]
        rw [beq_eq_false_iff_ne.mpr hs]
        simp [Nat.succ_min_succ]
      rw [hoc]
      simp only [multihandleEvent, if_neg hs, List.take_succ_cons]
      rw [ih]
      simp [strongestStatus]

/-- C1: a visible Panel offers the event to each child in list order, stops at
the first child returning HANDLED (later children are not offered the event),
and reports the strongest status seen among the offered children under
HANDLED > FORWARDED > IGNORED; in particular with children answering
IGNORED, HANDLED, anything, it reports HANDLED having offered the event to
exactly the first two children. -/
theorem panel_event_routing :
    (∀ l : List EventStatus,
        Panel.handleEvent true l =
          (strongestStatus (l.take (offeredCount l)), offeredCount l))
    ∧ (∀ (s : EventStatus) (rest : List EventStatus),
        Panel.handleEvent true (.IGNORED :: .HANDLED :: s :: rest) = (.HANDLED, 2)) := by
  constructor
  · intro l
    simpa [Panel.handleEvent] using multihandleEvent_spec l
  · intro s rest
    rfl

/-- C2 counterexample: a freshly constructed ScrollPanel (index 0,
sdlwin.hpp:187) showing one row but owning no children violates
`index + numShown ≤ childCount` after a wheel event (indeed the wheel event
is a no-op and the invariant never held). -/
theorem scroll_bounds_cex :
    ¬ scrollInv
      (ScrollPanel.handleEvent ⟨true, 0, 1, 0⟩ (.wheel 1 [])).1 := by
  decide

theorem scroll_step_inv {sp : ScrollPanelState} (h : scrollInv sp)
    (e : ScrollEvent) : scrollInv (ScrollPanel.handleEvent sp e).1 := by
  unfold ScrollPanel.handleEvent
  split
  · exact h
  · split
    · exact h
    · match e with
      | .other _ => exact h
      | .wheel y cs =>
        simp only
        split
        · rename_i hcond
          exact ⟨hcond.1, hcond.2⟩
        · exact h

/-- C2 (amended): for a ScrollPanel whose state satisfies the window invariant
`0 ≤ index ∧ index + numShown ≤ childCount`, the invariant still holds after
any sequence of events; moreover, from any state, a wheel event either leaves
the window start unchanged or shifts it by sgn of the delta into a state that
satisfies the invariant (so a shift happens only if the shifted window does).
The original claim fails for panels constructed with fewer children than
numShown, where the invariant does not hold to begin with. -/
theorem scroll_bounds (sp : ScrollPanelState) (h : scrollInv sp)
    (es : List ScrollEvent) :
    scrollInv (ScrollPanel.run sp es)
    ∧ ∀ (sq : ScrollPanelState) (y : Int) (cs : List EventStatus),
        (ScrollPanel.handleEvent sq (.wheel y cs)).1.index = sq.index
        ∨ ((ScrollPanel.handleEvent sq (.wheel y cs)).1.index = sq.index + sgn y
            ∧ scrollInv (ScrollPanel.handleEvent sq (.wheel y cs)).1) := by
  constructor
  · induction es generalizing sp with
    | nil => exact h
    | cons e rest ih => exact ih _ (scroll_step_inv h e)
  · intro sq y cs
    unfold ScrollPanel.handleEvent
    split
    · left; rfl
    · split
      · left; rfl
      · simp only
        split
        · rename_i hcond
          right
          exact ⟨rfl, hcond.1, hcond.2⟩
        · left; rfl

theorem scroll_bounds_witness :
    scrollInv (ScrollPanel.run ⟨true, 0, 1, 1⟩ [.wheel (-1) []])
    ∧ ((ScrollPanel.handleEvent ⟨true, 0, 1, 1⟩ (.wheel (-1) [])).1.index = 0
        ∨ ((ScrollPanel.handleEvent ⟨true, 0, 1, 1⟩ (.wheel (-1) [])).1.index = 0 + sgn (-1)
            ∧ scrollInv (ScrollPanel.handleEvent ⟨true, 0, 1, 1⟩ (.wheel (-1) [])).1)) :=
  ⟨(scroll_bounds ⟨true, 0, 1, 1⟩ (by decide) [.wheel (-1) []]).1,
   (scroll_bounds ⟨true, 0, 1, 1⟩ (by decide) [.wheel (-1) []]).2 ⟨true, 0, 1, 1⟩ (-1) []⟩

/-- C9 counterexample: with a child pass answering FORWARDED (not HANDLED) on
a wheel event, sdlwin.cpp:270 `if (Panel::handleEvent(event)) return HANDLED;`
short-circuits on truthiness, so the wheel step is skipped even though the
shifted window would be valid: the claim that a FORWARDED child pass does not
suppress wheel handling is false. -/
theorem scroll_wheel_gate_cex :
    ¬ ((Panel.handleEvent true [.FORWARDED, .IGNORED]).1 ≠ EventStatus.HANDLED →
        (ScrollPanel.handleEvent ⟨true, 0, 1, 2⟩
          (.wheel (-1) [.FORWARDED, .IGNORED])).1.index = 0 + sgn (-1)) := by
  decide

/-- C9 (amended): for a visible ScrollPanel handling a wheel event, the
wheel-scrolling step runs exactly when the base Panel pass over the children
returns IGNORED; any truthy result of the child pass — HANDLED or FORWARDED
alike — makes the panel return HANDLED at once with the window start
unchanged, so a FORWARDED child pass does suppress wheel handling. -/
theorem scroll_wheel_gate (sp : ScrollPanelState) (y : Int)
    (cs : List EventStatus) (hs : sp.shown = true) :
    ((multihandleEvent cs).1 ≠ EventStatus.IGNORED →
        ScrollPanel.handleEvent sp (.wheel y cs) = (sp, .HANDLED))
    ∧ ((multihandleEvent cs).1 = EventStatus.IGNORED →
        (ScrollPanel.handleEvent sp (.wheel y cs)).1.index =
          (if sp.index + sgn y ≥ 0 ∧
              sp.index + sgn y + sp.numShown ≤ (sp.childCount : Int) then
            sp.index + sgn y
          else sp.index)) := by
  have hpanel : Panel.handleEvent true (ScrollEvent.children (.wheel y cs)) =
      multihandleEvent cs := by
    simp [Panel.handleEvent, ScrollEvent.children]
  constructor
  · intro hne
    unfold ScrollPanel.handleEvent
    rw [hs]
    simp only [Bool.not_true, Bool.false_eq_true, if_false]
    rw [hpanel]
    have : (multihandleEvent cs).1.toBool = true := by
      cases hmc : (multihandleEvent cs).1 with
      | IGNORED => exact absurd hmc hne
      | FORWARDED => rfl
      | HANDLED => rfl
    rw [this]
    rfl
  · intro heq
    unfold ScrollPanel.handleEvent
    rw [hs]
    simp only [Bool.not_true, Bool.false_eq_true, if_false]
    rw [hpanel, heq]
    simp only [EventStatus.toBool, Bool.false_eq_true, if_false]
    split
    · rfl
    · rfl

theorem scroll_wheel_gate_witness :
    ((multihandleEvent [.HANDLED]).1 ≠ EventStatus.IGNORED →
        ScrollPanel.handleEvent ⟨true, 0, 1, 2⟩ (.wheel (-1) [.HANDLED]) =
          (⟨true, 0, 1, 2⟩, .HANDLED))
    ∧ ((multihandleEvent [.HANDLED]).1 = EventStatus.IGNORED →
        (ScrollPanel.handleEvent ⟨true, 0, 1, 2⟩ (.wheel (-1) [.HANDLED])).1.index =
          (if (0 : Int) + sgn (-1) ≥ 0 ∧
              (0 : Int) + sgn (-1) + 1 ≤ ((2 : Nat) : Int) then
            (0 : Int) + sgn (-1)
          else (0 : Int))) :=
  scroll_wheel_gate ⟨true, 0, 1, 2⟩ (-1) [.HANDLED] (by decide)

theorem floor_intCast_add_half (m : Int) : ⌊(m : ℚ) + 1 / 2⌋ = m := by
  rw [add_comm, Int.floor_add_int]
  have h : ⌊(1 / 2 : ℚ)⌋ = 0 := by
    rw [Int.floor_eq_zero_iff]
    constructor <;> norm_num
  omega

theorem roundAway_intCast (n : Int) : roundAway ((n : ℚ)) = n := by
  unfold roundAway
  split
  · exact floor_intCast_add_half n
  · rw [show (-(n : ℚ)) = (((-n : Int) : ℚ)) from by push_cast; ring]
    rw [floor_intCast_add_half]
    omega

theorem roundAway_nonneg {q : ℚ} (h : 0 ≤ q) : 0 ≤ roundAway q := by
  unfold roundAway
  rw [if_pos h]
  have : ((0 : Int) : ℚ) ≤ q + 1 / 2 := by push_cast; linarith
  exact Int.le_floor.mpr this

theorem roundAway_le {q : ℚ} {N : Int} (h0 : 0 ≤ q) (h : q ≤ (N : ℚ)) :
    roundAway q ≤ N := by
  unfold roundAway
  rw [if_pos h0]
  calc ⌊q + 1 / 2⌋ ≤ ⌊(N : ℚ) + 1 / 2⌋ := Int.floor_le_floor (by linarith)
  _ = N := floor_intCast_add_half N

theorem capVal_min (s : SliderState) : s.capVal.min = s.min := by
  unfold SliderState.capVal; split <;> [rfl; (split <;> rfl)]

theorem capVal_max (s : SliderState) : s.capVal.max = s.max := by
  unfold SliderState.capVal; split <;> [rfl; (split <;> rfl)]

theorem capVal_step (s : SliderState) : s.capVal.step = s.step := by
  unfold SliderState.capVal; split <;> [rfl; (split <;> rfl)]

theorem capVal_val {s : SliderState} (h : s.min ≤ s.max) :
    ((s.min : ℚ)) ≤ s.capVal.val ∧ s.capVal.val ≤ ((s.max : ℚ)) := by
  have hq : ((s.min : ℚ)) ≤ ((s.max : ℚ)) := by exact_mod_cast h
  unfold SliderState.capVal
  split
  · exact ⟨hq, le_refl _⟩
  · split
    · exact ⟨le_refl _, hq⟩
    · rename_i h1 h2
      exact ⟨le_of_not_lt h2, le_of_not_lt h1⟩

theorem dragDiff_wf {s : SliderState} {mn mx st : Int}
    (hm : s.min = mn) (hx : s.max = mx) (hs : s.step = st) (h : mn ≤ mx)
    (dpx dpy : Int) : sliderWF (s.dragDiff dpx dpy) mn mx st := by
  unfold SliderState.dragDiff
  have hle : ∀ q : ℚ, sliderWF (({ s with val := q } : SliderState)).capVal mn mx st := by
    intro q
    have hmm : ({ s with val := q } : SliderState).min ≤
        ({ s with val := q } : SliderState).max := by
      simp only [hm, hx]; exact h
    have hv := capVal_val hmm
    refine ⟨by rw [capVal_min]; exact hm, by rw [capVal_max]; exact hx,
      by rw [capVal_step]; exact hs, ?_, ?_⟩
    · have := hv.1; simpa [hm] using this
    · have := hv.2; simpa [hx] using this
  split
  · exact hle _
  · exact hle _

theorem applyOp_wf {s : SliderState} {mn mx st : Int}
    (hwf : sliderWF s mn mx st) (h : mn ≤ mx) (op : SliderOp) :
    sliderWF (s.applyOp op) mn mx st := by
  obtain ⟨h1, h2, h3, _, _⟩ := hwf
  cases op with
  | setVal n =>
    exact dragDiff_wf (s := { s with val := ((n : Int) : ℚ) }) h1 h2 h3 h 0 0
  | setStepNo n =>
    exact dragDiff_wf
      (s := { s with val := ((s.min : ℚ)) + ((n : Int) : ℚ) * ((s.step : ℚ)) })
      h1 h2 h3 h 0 0
  | drag dx dy => exact dragDiff_wf h1 h2 h3 h dx dy

theorem runOps_wf {s : SliderState} {mn mx st : Int}
    (hwf : sliderWF s mn mx st) (h : mn ≤ mx) (ops : List SliderOp) :
    sliderWF (s.runOps ops) mn mx st := by
  induction ops generalizing s with
  | nil => exact hwf
  | cons op rest ih => exact ih (applyOp_wf hwf h op)

theorem trueVal_bounds {s : SliderState} {mn mx st : Int}
    (hwf : sliderWF s mn mx st) (_hmn : mn ≤ mx) (hst : 0 < st)
    (hdvd : st ∣ mx - mn) :
    mn ≤ s.trueVal ∧ s.trueVal ≤ mx := by
  obtain ⟨h1, h2, h3, h4, h5⟩ := hwf
  obtain ⟨m, hmeq⟩ := hdvd
  have hstq : (0 : ℚ) < (st : ℚ) := by exact_mod_cast hst
  have hq0 : 0 ≤ (s.val - (mn : ℚ)) / (st : ℚ) :=
    div_nonneg (by linarith) (le_of_lt hstq)
  have hqm : (s.val - (mn : ℚ)) / (st : ℚ) ≤ ((m : ℚ)) := by
    have hub : s.val - (mn : ℚ) ≤ ((mx - mn : Int) : ℚ) := by push_cast; linarith
    calc (s.val - (mn : ℚ)) / (st : ℚ)
        ≤ ((mx - mn : Int) : ℚ) / (st : ℚ) := (div_le_div_iff_of_pos_right hstq).mpr hub
      _ = ((m : ℚ)) := by
          rw [hmeq]; push_cast
          rw [mul_comm, mul_div_assoc, div_self (ne_of_gt hstq), mul_one]
  have hlo : 0 ≤ s.stepn := by
    unfold SliderState.stepn
    rw [h1, h3]
    exact roundAway_nonneg hq0
  have hhi : s.stepn ≤ m := by
    unfold SliderState.stepn
    rw [h1, h3]
    exact roundAway_le hq0 hqm
  unfold SliderState.trueVal
  rw [h1, h3]
  constructor
  · nlinarith
  · have : s.stepn * st ≤ m * st := by
      exact mul_le_mul_of_nonneg_right hhi (le_of_lt hst)
    nlinarith [hmeq]

/-- C3 counterexample: a Slider with min 0, max 10, step 4 — a step that does
not divide max - min — quantizes setVal(10) to round(10/4)*4 = 12, outside
[min, max]: the claimed range invariant fails on the code as stated. -/
theorem slider_quantized_cex :
    ((mkSlider ⟨0, 0, 110, 20⟩ 0 10 4 false 10).setVal 10).trueVal = 12 ∧
    ¬ ((mkSlider ⟨0, 0, 110, 20⟩ 0 10 4 false 10).setVal 10).trueVal ≤ 10 := by
  have hval : ((mkSlider ⟨0, 0, 110, 20⟩ 0 10 4 false 10).setVal 10).val = 10 := by
    norm_num [mkSlider, makeSliderRect, SliderState.setVal, SliderState.dragDiff,
      SliderState.capVal, SliderState.upp, SliderState.valPxCount]
  have hmin : ((mkSlider ⟨0, 0, 110, 20⟩ 0 10 4 false 10).setVal 10).min = 0 := by
    norm_num [mkSlider, makeSliderRect, SliderState.setVal, SliderState.dragDiff,
      SliderState.capVal, SliderState.upp, SliderState.valPxCount]
  have hstep : ((mkSlider ⟨0, 0, 110, 20⟩ 0 10 4 false 10).setVal 10).step = 4 := by
    norm_num [mkSlider, makeSliderRect, SliderState.setVal, SliderState.dragDiff,
      SliderState.capVal, SliderState.upp, SliderState.valPxCount]
  have htv : ((mkSlider ⟨0, 0, 110, 20⟩ 0 10 4 false 10).setVal 10).trueVal = 12 := by
    unfold SliderState.trueVal SliderState.stepn
    rw [hval, hmin, hstep]
    have : ((10 : ℚ) - ((0 : Int) : ℚ)) / ((4 : Int) : ℚ) = 5 / 2 := by norm_num
    rw [this]
    have hr : roundAway (5 / 2 : ℚ) = 3 := by
      unfold roundAway
      rw [if_pos (by norm_num)]
      rw [show ((5 : ℚ) / 2 + 1 / 2) = ((3 : Int) : ℚ) from by push_cast; ring]
      rw [Int.floor_intCast]
    rw [hr]
    decide
  exact ⟨htv, by omega⟩

/-- C3 (amended): for a Slider whose parameters satisfy min ≤ max, step > 0
and step ∣ (max - min), after any sequence of operations (construction,
drag motion, setVal, setStepNo) the quantized observable value
trueVal = round((value - min)/step)*step + min lies in [min, max] and equals
min + k*step for an integer k.  Without the divisibility hypothesis the range
part fails (see the counterexample). -/
theorem slider_quantized (rect : SRect) (mn mx st : Int) (vert : Bool)
    (sw : Int) (hmn : mn ≤ mx) (hst : 0 < st) (hdvd : st ∣ mx - mn)
    (ops : List SliderOp) :
    (mn ≤ ((mkSlider rect mn mx st vert sw).runOps ops).trueVal
      ∧ ((mkSlider rect mn mx st vert sw).runOps ops).trueVal ≤ mx)
    ∧ ∃ k : Int, ((mkSlider rect mn mx st vert sw).runOps ops).trueVal
        = mn + k * st := by
  have hwf0 : sliderWF (mkSlider rect mn mx st vert sw) mn mx st := by
    refine ⟨rfl, rfl, rfl, ?_, ?_⟩
    · show ((mn : Int) : ℚ) ≤ ((mn : Int) : ℚ)
      exact le_refl _
    · show ((mn : Int) : ℚ) ≤ ((mx : Int) : ℚ)
      exact_mod_cast hmn
  have hwf := runOps_wf hwf0 hmn ops
  refine ⟨trueVal_bounds hwf hmn hst hdvd, ⟨((mkSlider rect mn mx st vert sw).runOps ops).stepn, ?_⟩⟩
  obtain ⟨h1, h2, h3, _, _⟩ := hwf
  unfold SliderState.trueVal
  rw [h1, h3]
  ring

theorem slider_quantized_witness :
    ((0 : Int) ≤ ((mkSlider ⟨0, 0, 110, 20⟩ 0 10 5 false 10).runOps [.setVal 7]).trueVal
      ∧ ((mkSlider ⟨0, 0, 110, 20⟩ 0 10 5 false 10).runOps [.setVal 7]).trueVal ≤ 10)
    ∧ ∃ k : Int, ((mkSlider ⟨0, 0, 110, 20⟩ 0 10 5 false 10).runOps [.setVal 7]).trueVal
        = 0 + k * 5 :=
  slider_quantized ⟨0, 0, 110, 20⟩ 0 10 5 false 10 (by decide) (by decide)
    ⟨2, rfl⟩ [.setVal 7]

theorem deactivate_fields (st : TextInputState) :
    st.deactivate.text = st.text ∧ st.deactivate.caretPos = st.caretPos
    ∧ st.deactivate.active = false
    ∧ (st.hasConfirm = true → st.deactivate.emitted = st.emitted ++ [st.text]) := by
  unfold TextInputState.deactivate
  dsimp only
  split_ifs <;> simp_all

theorem activate_fields (st : TextInputState) :
    st.activate.text = st.text ∧ st.activate.caretPos = st.caretPos := by
  unfold TextInputState.activate
  dsimp only
  split_ifs <;> simp_all

theorem clampCaret_inv (st : TextInputState) : caretInv st.clampCaret := by
  unfold TextInputState.clampCaret caretInv
  dsimp only
  split_ifs <;> simp_all

theorem clampCaret_text (st : TextInputState) : st.clampCaret.text = st.text := by
  unfold TextInputState.clampCaret
  dsimp only
  split_ifs <;> rfl

theorem clampCaret_emitted (st : TextInputState) :
    st.clampCaret.emitted = st.emitted := by
  unfold TextInputState.clampCaret
  dsimp only
  split_ifs <;> rfl

theorem clampCaret_active (st : TextInputState) :
    st.clampCaret.active = st.active := by
  unfold TextInputState.clampCaret
  dsimp only
  split_ifs <;> rfl

theorem handleKey_clamp (st : TextInputState) (k : Key) (hk : k ≠ .otherKey) :
    caretInv (st.handleKey k).1 := by
  cases k <;> simp only [TextInputState.handleKey] <;>
    first
    | exact clampCaret_inv _
    | exact absurd rfl hk

theorem handleKey_inv {st : TextInputState} (h : caretInv st) (k : Key) :
    caretInv (st.handleKey k).1 := by
  cases k
  case otherKey => exact h
  all_goals exact handleKey_clamp st _ (by intro hc; cases hc)

theorem insertChar_inv {st : TextInputState} (h : caretInv st) (c : Char) :
    caretInv
      ({ st.insertChar c st.caretPos with caretPos := st.caretPos + 1 } :
        TextInputState) := by
  obtain ⟨h0, h1⟩ := h
  unfold TextInputState.insertChar
  rw [if_neg (by omega)]
  refine ⟨by simp; omega, ?_⟩
  simp only [List.length_append, List.length_take, List.length_drop,
    List.length_cons, List.length_nil]
  omega

theorem handleEvent_inv {st : TextInputState} (h : caretInv st) (e : TEvent) :
    caretInv (st.handleEvent e).1 := by
  unfold TextInputState.handleEvent
  split
  · exact h
  · split
    · have ha := activate_fields st
      exact ⟨ha.2 ▸ h.1, ha.2 ▸ ha.1 ▸ h.2⟩
    · split
      · split
        · have hd := deactivate_fields st
          exact ⟨hd.2.1 ▸ h.1, hd.2.1 ▸ hd.1 ▸ h.2⟩
        · match e with
          | .mouseDown px py clicks => exact h
          | .otherEv => exact h
          | .textIn c => exact insertChar_inv h c
          | .keyDown k =>
            simp only
            exact handleKey_inv h k
      · exact h

/-- C7: for every TextInput, after any sequence of events (activating clicks,
raw character input, recognised or unrecognised keys, outside presses) the
caret invariant 0 ≤ caretPos ≤ length(text) is preserved; moreover Backspace
at caret 0 and Delete at the end of the text leave the text unchanged with
the caret still in range. -/
theorem textinput_caret (st : TextInputState) (h : caretInv st)
    (es : List TEvent) :
    caretInv (st.run es)
    ∧ (st.caretPos = 0 →
        (st.handleKey .backspace).1.text = st.text
        ∧ caretInv (st.handleKey .backspace).1)
    ∧ (st.caretPos = (st.text.length : Int) →
        (st.handleKey .delete).1.text = st.text
        ∧ caretInv (st.handleKey .delete).1) := by
  refine ⟨?_, ?_, ?_⟩
  · induction es generalizing st with
    | nil => exact h
    | cons e rest ih => exact ih _ (handleEvent_inv h e)
  · intro h0
    refine ⟨?_, handleKey_clamp st _ (by intro hc; cases hc)⟩
    simp only [TextInputState.handleKey]
    have hdel :
        (({ st with caretPos := st.caretPos - 1 } : TextInputState).deleteChar
          (st.caretPos - 1)) = { st with caretPos := st.caretPos - 1 } := by
      unfold TextInputState.deleteChar
      rw [if_pos (Or.inl (by omega))]
    rw [hdel, clampCaret_text]
  · intro hend
    refine ⟨?_, handleKey_clamp st _ (by intro hc; cases hc)⟩
    simp only [TextInputState.handleKey]
    have hdel : st.deleteChar st.caretPos = st := by
      unfold TextInputState.deleteChar
      rw [if_pos (Or.inr (le_of_eq hend.symm))]
    rw [hdel, clampCaret_text]

theorem textinput_caret_witness :
    caretInv
      ((⟨⟨0, 0, 50, 20⟩, ['a', 'b'], 0, true, false, true, false, []⟩ :
        TextInputState).run [.keyDown .backspace, .textIn 'c', .keyDown .endKey])
    ∧ ((0 : Int) = 0 →
        ((⟨⟨0, 0, 50, 20⟩, ['a', 'b'], 0, true, false, true, false, []⟩ :
          TextInputState).handleKey .backspace).1.text = ['a', 'b']
        ∧ caretInv ((⟨⟨0, 0, 50, 20⟩, ['a', 'b'], 0, true, false, true, false, []⟩ :
          TextInputState).handleKey .backspace).1)
    ∧ ((0 : Int) = (([' ', ' '].length : Int)) →
        ((⟨⟨0, 0, 50, 20⟩, ['a', 'b'], 0, true, false, true, false, []⟩ :
          TextInputState).handleKey .delete).1.text = ['a', 'b']
        ∧ caretInv ((⟨⟨0, 0, 50, 20⟩, ['a', 'b'], 0, true, false, true, false, []⟩ :
          TextInputState).handleKey .delete).1) := by
  have h := textinput_caret
    (⟨⟨0, 0, 50, 20⟩, ['a', 'b'], 0, true, false, true, false, []⟩ : TextInputState)
    (by constructor <;> decide)
    [.keyDown .backspace, .textIn 'c', .keyDown .endKey]
  exact ⟨h.1, fun _ => h.2.1 rfl, fun hx => absurd hx (by decide)⟩

/-- C10 (implicit behaviour): whenever an active TextInput is deactivated —
by the enter/confirm key, by a mouse press outside the control, or by a
direct call to deactivate — the confirm callback, when installed, receives
the current text; an outside press fires it exactly as the enter key does. -/
theorem textinput_confirm (st : TextInputState) (hsh : st.shown = true)
    (hac : st.active = true) (hcb : st.hasConfirm = true) :
    (∀ px py clicks : Int, clicks ≠ 0 → posInside st.rect px py = false →
        (st.handleEvent (.mouseDown px py clicks)).1.emitted = st.emitted ++ [st.text]
        ∧ (st.handleEvent (.mouseDown px py clicks)).1.active = false)
    ∧ ((st.handleEvent (.keyDown .enter)).1.emitted = st.emitted ++ [st.text]
        ∧ (st.handleEvent (.keyDown .enter)).1.active = false)
    ∧ (st.deactivate.emitted = st.emitted ++ [st.text]
        ∧ st.deactivate.active = false) := by
  have hd := deactivate_fields st
  refine ⟨?_, ?_, hd.2.2.2 hcb, hd.2.2.1⟩
  · intro px py clicks hc hout
    unfold TextInputState.handleEvent
    rw [if_neg (by rw [hsh]; intro hcontra; cases hcontra)]
    rw [if_neg (by rw [hac]; intro hcontra; exact absurd hcontra.1 (by intro hf; cases hf))]
    rw [if_pos hac]
    rw [if_pos (by simp [TextInputState.clickOutside, hout, hc])]
    exact ⟨hd.2.2.2 hcb, hd.2.2.1⟩
  · unfold TextInputState.handleEvent
    rw [if_neg (by rw [hsh]; intro hcontra; cases hcontra)]
    rw [if_neg (by rw [hac]; intro hcontra; exact absurd hcontra.1 (by intro hf; cases hf))]
    rw [if_pos hac]
    rw [if_neg (by simp [TextInputState.clickOutside])]
    simp only [TextInputState.handleKey]
    constructor
    · rw [clampCaret_emitted]
      exact hd.2.2.2 hcb
    · rw [clampCaret_active]
      exact hd.2.2.1

theorem textinput_confirm_witness :
    (∀ px py clicks : Int, clicks ≠ 0 →
        posInside (⟨0, 0, 50, 20⟩ : SRect) px py = false →
        (((⟨⟨0, 0, 50, 20⟩, ['h', 'i'], 1, true, false, true, true, []⟩ :
            TextInputState)).handleEvent (.mouseDown px py clicks)).1.emitted =
          [] ++ [['h', 'i']]
        ∧ (((⟨⟨0, 0, 50, 20⟩, ['h', 'i'], 1, true, false, true, true, []⟩ :
            TextInputState)).handleEvent (.mouseDown px py clicks)).1.active = false)
    ∧ ((((⟨⟨0, 0, 50, 20⟩, ['h', 'i'], 1, true, false, true, true, []⟩ :
          TextInputState)).handleEvent (.keyDown .enter)).1.emitted = [] ++ [['h', 'i']]
        ∧ (((⟨⟨0, 0, 50, 20⟩, ['h', 'i'], 1, true, false, true, true, []⟩ :
          TextInputState)).handleEvent (.keyDown .enter)).1.active = false)
    ∧ ((⟨⟨0, 0, 50, 20⟩, ['h', 'i'], 1, true, false, true, true, []⟩ :
          TextInputState).deactivate.emitted = [] ++ [['h', 'i']]
        ∧ (⟨⟨0, 0, 50, 20⟩, ['h', 'i'], 1, true, false, true, true, []⟩ :
          TextInputState).deactivate.active = false) :=
  textinput_confirm
    (⟨⟨0, 0, 50, 20⟩, ['h', 'i'], 1, true, false, true, true, []⟩ : TextInputState)
    rfl rfl rfl

theorem dropdownInv_add {elems : List MiniPanel} (h : dropdownInv elems)
    (p : Nat) : dropdownInv (Dropdown.addComponent elems p) := by
  intro i hi
  simp only [Dropdown.addComponent, List.get_eq_getElem] at hi ⊢
  rcases Nat.lt_or_ge i elems.length with hlt | hge
  · rw [List.getElem_append_left hlt]
    exact h i hlt
  · have hieq : i = elems.length := by
      simp only [List.length_append, List.length_cons, List.length_nil] at hi
      omega
    rw [List.getElem_concat_length _ _ _ hieq]
    rw [hieq]

theorem dropdownInv_removeAt {elems : List MiniPanel} (h : dropdownInv elems)
    (i : Int) : dropdownInv (Dropdown.removeAt elems i) := by
  unfold Dropdown.removeAt
  split
  · rename_i hrange
    intro k hk
    simp only [Dropdown.reindex, List.get_eq_getElem, List.getElem_mapIdx]
    have hk' : k < (elems.eraseIdx i.toNat).length := by
      simpa [Dropdown.reindex] using hk
    split
    · rfl
    · rename_i hstart
      have hki : (k : Int) < i := lt_of_not_le hstart
      have hkn : k < i.toNat := by omega
      rw [List.getElem_eraseIdx _ _ _ hk']
      rw [dif_pos hkn]
      exact h k (by
        have := hk'
        rw [List.length_eraseIdx] at this
        split at this <;> omega)
  · exact h

theorem dropdownInv_swapElems {elems : List MiniPanel} (h : dropdownInv elems)
    (i j : Int) : dropdownInv (Dropdown.swapElems elems i j) := by
  unfold Dropdown.swapElems
  split
  · exact h
  · rename_i hrange
    push_neg at hrange
    obtain ⟨h1, h2, h3, h4⟩ := hrange
    have hi : i.toNat < elems.length := by omega
    have hj : j.toNat < elems.length := by omega
    have hgd_i : elems.getD i.toNat ⟨0, 0⟩ = elems[i.toNat] :=
      List.getD_eq_getElem elems ⟨0, 0⟩ hi
    have hgd_j : elems.getD j.toNat ⟨0, 0⟩ = elems[j.toNat] :=
      List.getD_eq_getElem elems ⟨0, 0⟩ hj
    have hidx_i := h i.toNat hi
    have hidx_j := h j.toNat hj
    simp only [List.get_eq_getElem] at hidx_i hidx_j
    intro k hk
    simp only [List.get_eq_getElem]
    have hk' : k < elems.length := by
      simpa [List.length_set] using hk
    by_cases hkj : k = j.toNat
    · subst hkj
      rw [List.getElem_set_self]
      rw [hgd_j]
      exact hidx_j
    · rw [List.getElem_set_ne (fun hcontra => hkj hcontra.symm)]
      by_cases hki : k = i.toNat
      · subst hki
        rw [List.getElem_set_self]
        rw [hgd_i]
        exact hidx_i
      · rw [List.getElem_set_ne (fun hcontra => hki hcontra.symm)]
        rw [List.getElem_set_ne (fun hcontra => hkj hcontra.symm)]
        rw [List.getElem_set_ne (fun hcontra => hki hcontra.symm)]
        exact h k hk'

theorem dropdownInv_applyOp {elems : List MiniPanel} (h : dropdownInv elems)
    (op : DropdownOp) : dropdownInv (Dropdown.applyOp elems op) := by
  cases op with
  | add p => exact dropdownInv_add h p
  | removeAt i => exact dropdownInv_removeAt h i
  | swapElems i j => exact dropdownInv_swapElems h i j

theorem payloads_reindex (l : List MiniPanel) (s : Int) :
    Dropdown.payloads (Dropdown.reindex l s) = Dropdown.payloads l := by
  apply List.ext_getElem
  · simp [Dropdown.payloads, Dropdown.reindex]
  · intro n h1 h2
    simp only [Dropdown.payloads, Dropdown.reindex, List.getElem_map,
      List.getElem_mapIdx]
    split <;> rfl

theorem payloads_eraseIdx (l : List MiniPanel) (k : Nat) :
    Dropdown.payloads (l.eraseIdx k) = (Dropdown.payloads l).eraseIdx k := by
  apply List.ext_getElem
  · simp [Dropdown.payloads, List.length_eraseIdx]
  · intro n h1 h2
    simp only [Dropdown.payloads, List.getElem_map, List.getElem_eraseIdx]
    split <;> simp [List.getElem_map]

theorem payloads_removeAt {elems : List MiniPanel} (i : Int) (h0 : 0 ≤ i)
    (hlen : i < (elems.length : Int)) :
    Dropdown.payloads (Dropdown.removeAt elems i) =
      (Dropdown.payloads elems).eraseIdx i.toNat := by
  unfold Dropdown.removeAt
  rw [if_pos ⟨h0, hlen⟩, payloads_reindex, payloads_eraseIdx]

theorem swapElems_length (elems : List MiniPanel) (i j : Int) :
    (Dropdown.swapElems elems i j).length = elems.length := by
  unfold Dropdown.swapElems
  split
  · rfl
  · simp [List.length_set]

/-- C8: starting from any Dropdown whose rows are correctly numbered, each
decorated row's remembered index equals its offset after any sequence of
additions, removals and swaps; removing a row at a valid position erases it
from the row list and renumbers the later rows; swapping two valid positions
exchanges both the rows' list positions and their remembered indices while
leaving every other position untouched; and the concrete [A,B,C] scenario of
spec section 8 behaves as claimed. -/
theorem dropdown_reindex_rows (elems : List MiniPanel) (h : dropdownInv elems)
    (ops : List DropdownOp) :
    dropdownInv (Dropdown.runOps elems ops)
    ∧ (∀ i : Int, 0 ≤ i → i < (elems.length : Int) →
        Dropdown.payloads (Dropdown.removeAt elems i) =
          (Dropdown.payloads elems).eraseIdx i.toNat
        ∧ dropdownInv (Dropdown.removeAt elems i))
    ∧ (∀ i j : Int, 0 ≤ i → 0 ≤ j →
        i < (elems.length : Int) → j < (elems.length : Int) →
        (Dropdown.swapElems elems i j).getD j.toNat ⟨0, 0⟩ =
          ⟨(elems.getD i.toNat ⟨0, 0⟩).payload, j⟩
        ∧ (Dropdown.swapElems elems i j).getD i.toNat ⟨0, 0⟩ =
          ⟨(elems.getD j.toNat ⟨0, 0⟩).payload, i⟩
        ∧ ∀ k : Nat, k ≠ i.toNat → k ≠ j.toNat →
            (Dropdown.swapElems elems i j).getD k ⟨0, 0⟩ =
              elems.getD k ⟨0, 0⟩)
    ∧ (Dropdown.removeAt [⟨1, 0⟩, ⟨2, 1⟩, ⟨3, 2⟩] 1 = [⟨1, 0⟩, ⟨3, 1⟩]
        ∧ Dropdown.swapElems [⟨1, 0⟩, ⟨3, 1⟩] 0 1 = [⟨3, 0⟩, ⟨1, 1⟩]) := by
  refine ⟨?_, ?_, ?_, by decide⟩
  · induction ops generalizing elems with
    | nil => exact h
    | cons op rest ih => exact ih _ (dropdownInv_applyOp h op)
  · intro i h0 hlen
    exact ⟨payloads_removeAt i h0 hlen, dropdownInv_removeAt h i⟩
  · intro i j h1 h2 h3 h4
    have hi : i.toNat < elems.length := by omega
    have hj : j.toNat < elems.length := by omega
    have hlenL : (Dropdown.swapElems elems i j).length = elems.length :=
      swapElems_length elems i j
    have hgd_i : elems.getD i.toNat ⟨0, 0⟩ = elems[i.toNat] :=
      List.getD_eq_getElem elems ⟨0, 0⟩ hi
    have hgd_j : elems.getD j.toNat ⟨0, 0⟩ = elems[j.toNat] :=
      List.getD_eq_getElem elems ⟨0, 0⟩ hj
    have hidx_i := h i.toNat hi
    have hidx_j := h j.toNat hj
    simp only [List.get_eq_getElem] at hidx_i hidx_j
    have hswap :
        Dropdown.swapElems elems i j =
          (((elems.set i.toNat elems[j.toNat]).set j.toNat elems[i.toNat]).set
              i.toNat ⟨elems[j.toNat].payload, elems[i.toNat].index⟩).set
            j.toNat ⟨elems[i.toNat].payload, elems[j.toNat].index⟩ := by
      unfold Dropdown.swapElems
      rw [if_neg (by omega)]
      dsimp only
      rw [hgd_i, hgd_j]
    have hiL : i.toNat < (Dropdown.swapElems elems i j).length := by
      rw [hlenL]; exact hi
    have hjL : j.toNat < (Dropdown.swapElems elems i j).length := by
      rw [hlenL]; exact hj
    refine ⟨?_, ?_, ?_⟩
    · rw [List.getD_eq_getElem (Dropdown.swapElems elems i j) ⟨0, 0⟩ hjL]
      rw [hgd_i]
      have hval : (Dropdown.swapElems elems i j)[j.toNat] =
          (⟨elems[i.toNat].payload, elems[j.toNat].index⟩ : MiniPanel) := by
        simp only [hswap]
        exact List.getElem_set_self _
      rw [hval, hidx_j]
      congr 1
      omega
    · rw [List.getD_eq_getElem (Dropdown.swapElems elems i j) ⟨0, 0⟩ hiL]
      rw [hgd_j]
      by_cases hij : i.toNat = j.toNat
      · have hval : (Dropdown.swapElems elems i j)[i.toNat] =
            (⟨elems[i.toNat].payload, elems[j.toNat].index⟩ : MiniPanel) := by
          simp only [hswap]
          rw [List.getElem_set]
          rw [if_pos hij.symm]
        rw [hval, hidx_j]
        have hpq : elems[i.toNat] = elems[j.toNat] := by
          congr 1
        rw [hpq]
        congr 1
        omega
      · have hval : (Dropdown.swapElems elems i j)[i.toNat] =
            (⟨elems[j.toNat].payload, elems[i.toNat].index⟩ : MiniPanel) := by
          simp only [hswap]
          rw [List.getElem_set_ne (fun hc => hij hc.symm)]
          exact List.getElem_set_self _
        rw [hval, hidx_i]
        congr 1
        omega
    · intro k hki hkj
      by_cases hklen : k < elems.length
      · have hkL : k < (Dropdown.swapElems elems i j).length := by
          rw [hlenL]; exact hklen
        rw [List.getD_eq_getElem (Dropdown.swapElems elems i j) ⟨0, 0⟩ hkL]
        rw [List.getD_eq_getElem elems ⟨0, 0⟩ hklen]
        simp only [hswap]
        rw [List.getElem_set_ne (fun hc => hkj hc.symm)]
        rw [List.getElem_set_ne (fun hc => hki hc.symm)]
        rw [List.getElem_set_ne (fun hc => hkj hc.symm)]
        rw [List.getElem_set_ne (fun hc => hki hc.symm)]
      · rw [List.getD_eq_getElem?_getD, List.getD_eq_getElem?_getD]
        rw [List.getElem?_eq_none (by rw [hlenL]; omega)]
        rw [List.getElem?_eq_none (by omega)]

theorem dropdown_reindex_rows_witness :
    dropdownInv (Dropdown.runOps [⟨5, 0⟩, ⟨7, 1⟩] [.swapElems 0 1])
    ∧ (Dropdown.payloads (Dropdown.removeAt [⟨5, 0⟩, ⟨7, 1⟩] 0) =
          (Dropdown.payloads [⟨5, 0⟩, ⟨7, 1⟩]).eraseIdx 0
        ∧ dropdownInv (Dropdown.removeAt [⟨5, 0⟩, ⟨7, 1⟩] 0))
    ∧ ((Dropdown.swapElems [⟨5, 0⟩, ⟨7, 1⟩] 0 1).getD 1 ⟨0, 0⟩ =
          ⟨(([⟨5, 0⟩, ⟨7, 1⟩] : List MiniPanel).getD 0 ⟨0, 0⟩).payload, 1⟩
        ∧ (Dropdown.swapElems [⟨5, 0⟩, ⟨7, 1⟩] 0 1).getD 0 ⟨0, 0⟩ =
          ⟨(([⟨5, 0⟩, ⟨7, 1⟩] : List MiniPanel).getD 1 ⟨0, 0⟩).payload, 0⟩)
    ∧ (Dropdown.removeAt [⟨1, 0⟩, ⟨2, 1⟩, ⟨3, 2⟩] 1 = [⟨1, 0⟩, ⟨3, 1⟩]
        ∧ Dropdown.swapElems [⟨1, 0⟩, ⟨3, 1⟩] 0 1 = [⟨3, 0⟩, ⟨1, 1⟩]) := by
  have t := dropdown_reindex_rows [⟨5, 0⟩, ⟨7, 1⟩] (by decide) [.swapElems 0 1]
  have t3 := t.2.2.1 0 1 (by decide) (by decide) (by decide) (by decide)
  exact ⟨t.1, t.2.1 0 (by decide) (by decide), ⟨t3.1, t3.2.1⟩, t.2.2.2⟩

/-- C6: for a visible Expandable: a single click (click count 1) on the
trigger, when the popup pass ignores the press (automatic for a closed
Expandable, whose hidden popup ignores everything), toggles expanded — in
particular opens a closed one — and is reported FORWARDED, not HANDLED; a
press outside both the trigger and the popup while expanded (and ignored by
the popup's children) closes it; a press inside the open popup never closes
it, whatever the popup's children answer. -/
theorem expandable_toggle :
    (∀ (cs : List EventStatus) (st : ExpandableState) (px py : Int),
        st.shown = true →
        (Panel.handleEvent st.panelShown cs).1 = .IGNORED →
        posInside st.rect px py = true →
        st.handleEvent cs (.mouseDown px py 1) =
          (st.setExpanded (!st.expanded), .FORWARDED))
    ∧ (∀ (cs : List EventStatus) (st : ExpandableState) (px py clicks : Int),
        st.shown = true → st.expanded = true →
        (Panel.handleEvent st.panelShown cs).1 = .IGNORED →
        posInside st.rect px py = false → posInside st.panelRect px py = false →
        st.handleEvent cs (.mouseDown px py clicks) =
          (st.setExpanded false, .FORWARDED))
    ∧ (∀ (cs : List EventStatus) (st : ExpandableState) (px py clicks : Int),
        st.shown = true → st.expanded = true →
        posInside st.rect px py = false → posInside st.panelRect px py = true →
        (st.handleEvent cs (.mouseDown px py clicks)).1.expanded = true) := by
  refine ⟨?_, ?_, ?_⟩
  · intro cs st px py hsh hpp hin
    unfold ExpandableState.handleEvent
    rw [if_neg (by rw [hsh]; intro hc; cases hc)]
    rw [if_neg (by simp [ExpandableState.hoverChange])]
    rw [if_neg (by rw [hpp]; intro hc; cases hc)]
    rw [if_pos (by simp [ExpandableState.clickedCount, hin])]
  · intro cs st px py clicks hsh hexp hpp hout hpanelout
    unfold ExpandableState.handleEvent
    rw [if_neg (by rw [hsh]; intro hc; cases hc)]
    rw [if_neg (by simp [ExpandableState.hoverChange])]
    rw [if_neg (by rw [hpp]; intro hc; cases hc)]
    rw [if_neg (by simp [ExpandableState.clickedCount, hout])]
    simp only
    rw [if_pos ⟨hexp, hpanelout⟩]
  · intro cs st px py clicks hsh hexp hout hpanelin
    unfold ExpandableState.handleEvent
    rw [if_neg (by rw [hsh]; intro hc; cases hc)]
    rw [if_neg (by simp [ExpandableState.hoverChange])]
    by_cases hpp : (Panel.handleEvent st.panelShown cs).1.toBool = true
    · rw [if_pos hpp]
      exact hexp
    · rw [if_neg hpp]
      rw [if_neg (by simp [ExpandableState.clickedCount, hout])]
      simp only
      rw [if_neg (by intro hc; rw [hpanelin] at hc; cases hc.2)]
      exact hexp

theorem expandable_toggle_witness :
    ((⟨⟨0, 0, 10, 10⟩, true, false, false, ⟨0, 10, 10, 50⟩, false⟩ :
        ExpandableState).handleEvent [] (.mouseDown 5 5 1) =
      ((⟨⟨0, 0, 10, 10⟩, true, false, false, ⟨0, 10, 10, 50⟩, false⟩ :
        ExpandableState).setExpanded
          (!(⟨⟨0, 0, 10, 10⟩, true, false, false, ⟨0, 10, 10, 50⟩, false⟩ :
            ExpandableState).expanded), .FORWARDED))
    ∧ ((⟨⟨0, 0, 10, 10⟩, true, false, true, ⟨0, 10, 10, 50⟩, true⟩ :
        ExpandableState).handleEvent [] (.mouseDown 50 80 1) =
      ((⟨⟨0, 0, 10, 10⟩, true, false, true, ⟨0, 10, 10, 50⟩, true⟩ :
        ExpandableState).setExpanded false, .FORWARDED))
    ∧ ((⟨⟨0, 0, 10, 10⟩, true, false, true, ⟨0, 10, 10, 50⟩, true⟩ :
        ExpandableState).handleEvent [.FORWARDED] (.mouseDown 5 20 1)).1.expanded
        = true :=
  ⟨expandable_toggle.1 []
      (⟨⟨0, 0, 10, 10⟩, true, false, false, ⟨0, 10, 10, 50⟩, false⟩ :
        ExpandableState) 5 5 rfl rfl (by decide),
   expandable_toggle.2.1 []
      (⟨⟨0, 0, 10, 10⟩, true, false, true, ⟨0, 10, 10, 50⟩, true⟩ :
        ExpandableState) 50 80 1 rfl rfl rfl (by decide) (by decide),
   expandable_toggle.2.2 [.FORWARDED]
      (⟨⟨0, 0, 10, 10⟩, true, false, true, ⟨0, 10, 10, 50⟩, true⟩ :
        ExpandableState) 5 20 1 rfl rfl (by decide) (by decide)⟩

set_option maxRecDepth 4000 in
theorem stoi16_pair_key :
    ∀ na : Nat, na < 71 → ∀ nb : Nat, nb < 71 →
      isUpperHexC (Char.ofNat na) = true → isUpperHexC (Char.ofNat nb) = true →
      stoi16 [Char.ofNat na, Char.ofNat nb] =
        some ((16 * hexDigitVal (Char.ofNat na) +
          hexDigitVal (Char.ofNat nb) : Nat) : Int) := by
  decide

theorem hexPair_byte :
    ∀ d1 : Nat, d1 < 16 → ∀ d0 : Nat, d0 < 16 →
      ColorSelect.hexPair ((16 * d1 + d0 : Nat) : Int) = [hx d1, hx d0] := by
  decide

theorem hx_key :
    ∀ n : Nat, n < 71 → isUpperHexC (Char.ofNat n) = true →
      hx (hexDigitVal (Char.ofNat n)) = Char.ofNat n
      ∧ hexDigitVal (Char.ofNat n) < 16 := by
  decide

theorem upperHex_toNat_lt (c : Char) (h : isUpperHexC c = true) :
    c.toNat < 71 := by
  simp only [isUpperHexC, Bool.or_eq_true, Bool.and_eq_true,
    decide_eq_true_eq] at h
  omega

theorem hx_hexDigitVal (c : Char) (h : isUpperHexC c = true) :
    hx (hexDigitVal c) = c ∧ hexDigitVal c < 16 := by
  have h71 := upperHex_toNat_lt c h
  have hofnat : Char.ofNat c.toNat = c := Char.ofNat_toNat c
  have hk := hx_key c.toNat h71 (by rw [hofnat]; exact h)
  rw [hofnat] at hk
  exact hk

theorem stoi16_pair (a b : Char) (ha : isUpperHexC a = true)
    (hb : isUpperHexC b = true) :
    stoi16 [a, b] =
      some ((16 * hexDigitVal a + hexDigitVal b : Nat) : Int) := by
  have h71a := upperHex_toNat_lt a ha
  have h71b := upperHex_toNat_lt b hb
  have hoa : Char.ofNat a.toNat = a := Char.ofNat_toNat a
  have hob : Char.ofNat b.toNat = b := Char.ofNat_toNat b
  have hk := stoi16_pair_key a.toNat h71a b.toNat h71b
    (by rw [hoa]; exact ha) (by rw [hob]; exact hb)
  rw [hoa, hob] at hk
  exact hk

theorem nat_shiftRight_lor (x y k : Nat) :
    (x ||| y) >>> k = (x >>> k) ||| (y >>> k) :=
  Nat.eq_of_testBit_eq fun i => by
    simp [Nat.testBit_lor, Nat.testBit_shiftRight]

theorem nat_and_lor (x y z : Nat) :
    (x ||| y) &&& z = (x &&& z) ||| (y &&& z) :=
  Nat.eq_of_testBit_eq fun i => by
    simp [Nat.testBit_lor, Nat.testBit_and, Bool.and_or_distrib_right]

theorem nat_and_255 (x : Nat) : x &&& 255 = x % 256 := by
  have h := Nat.and_pow_two_sub_one_eq_mod x 8
  norm_num at h
  exact h

theorem byte_extract (b0 b1 b2 : Nat) (h0 : b0 < 256) (h1 : b1 < 256)
    (h2 : b2 < 256) :
    (((b0 <<< 16 ||| b1 <<< 8 ||| b2) >>> 16) &&& 255) = b0
    ∧ (((b0 <<< 16 ||| b1 <<< 8 ||| b2) >>> 8) &&& 255) = b1
    ∧ (((b0 <<< 16 ||| b1 <<< 8 ||| b2) >>> 0) &&& 255) = b2 := by
  have hs16 : b0 <<< 16 = b0 * 65536 := by rw [Nat.shiftLeft_eq]
  have hs8 : b1 <<< 8 = b1 * 256 := by rw [Nat.shiftLeft_eq]
  have hp16 : (2 : Nat) ^ 16 = 65536 := by norm_num
  have hp8 : (2 : Nat) ^ 8 = 256 := by norm_num
  refine ⟨?_, ?_, ?_⟩
  · rw [nat_shiftRight_lor, nat_shiftRight_lor]
    rw [Nat.shiftRight_eq_div_pow, Nat.shiftRight_eq_div_pow,
      Nat.shiftRight_eq_div_pow, hs16, hs8, hp16]
    rw [Nat.mul_div_cancel b0 (by norm_num : (0 : Nat) < 65536)]
    rw [Nat.div_eq_of_lt (by omega : b1 * 256 < 65536)]
    rw [Nat.div_eq_of_lt (by omega : b2 < 65536)]
    simp only [Nat.or_zero]
    rw [nat_and_255]
    exact Nat.mod_eq_of_lt h0
  · rw [nat_shiftRight_lor, nat_shiftRight_lor]
    rw [Nat.shiftRight_eq_div_pow, Nat.shiftRight_eq_div_pow,
      Nat.shiftRight_eq_div_pow, hs16, hs8, hp8]
    rw [Nat.mul_div_cancel b1 (by norm_num : (0 : Nat) < 256)]
    rw [show b0 * 65536 / 256 = b0 * 256 from by omega]
    rw [Nat.div_eq_of_lt (by omega : b2 < 256)]
    simp only [Nat.or_zero]
    rw [nat_and_lor, nat_and_255, nat_and_255]
    rw [Nat.mul_mod_left, Nat.mod_eq_of_lt h1]
    simp
  · rw [Nat.shiftRight_zero]
    rw [nat_and_lor, nat_and_lor, nat_and_255, nat_and_255, nat_and_255]
    rw [hs16, hs8]
    rw [show b0 * 65536 % 256 = 0 from by omega]
    rw [show b1 * 256 % 256 = 0 from by omega]
    rw [Nat.mod_eq_of_lt h2]
    simp

theorem color_to_bytes (b0 b1 b2 : Nat) (h0 : b0 < 256) (h1 : b1 < 256)
    (h2 : b2 < 256) :
    ((Int.lor (Int.lor (((b0 : Nat) : Int) <<< (16 : Int))
        (((b1 : Nat) : Int) <<< (8 : Int))) ((b2 : Nat) : Int)) %
        (2 : Int) ^ 32).toNat
      = b0 <<< 16 ||| b1 <<< 8 ||| b2 := by
  have hc16 : ((b0 : Nat) : Int) <<< (16 : Int) = ((b0 <<< 16 : Nat) : Int) := by
    rw [show (16 : Int) = ((16 : Nat) : Int) from rfl, Int.shiftLeft_coe_nat]
  have hc8 : ((b1 : Nat) : Int) <<< (8 : Int) = ((b1 <<< 8 : Nat) : Int) := by
    rw [show (8 : Int) = ((8 : Nat) : Int) from rfl, Int.shiftLeft_coe_nat]
  rw [hc16, hc8]
  rw [show Int.lor ((b0 <<< 16 : Nat) : Int) ((b1 <<< 8 : Nat) : Int)
      = ((b0 <<< 16 ||| b1 <<< 8 : Nat) : Int) from rfl]
  rw [show Int.lor ((b0 <<< 16 ||| b1 <<< 8 : Nat) : Int) ((b2 : Nat) : Int)
      = ((b0 <<< 16 ||| b1 <<< 8 ||| b2 : Nat) : Int) from rfl]
  have hlt : b0 <<< 16 ||| b1 <<< 8 ||| b2 < 2 ^ 32 := by
    have e16 : b0 <<< 16 < 2 ^ 32 := by
      rw [Nat.shiftLeft_eq]
      have : (2 : Nat) ^ 32 = 4294967296 := by norm_num
      rw [this]
      have : (2 : Nat) ^ 16 = 65536 := by norm_num
      rw [this]
      omega
    have e8 : b1 <<< 8 < 2 ^ 32 := by
      rw [Nat.shiftLeft_eq]
      have : (2 : Nat) ^ 32 = 4294967296 := by norm_num
      rw [this]
      have : (2 : Nat) ^ 8 = 256 := by norm_num
      rw [this]
      omega
    have e2 : b2 < 2 ^ 32 := by
      have : (2 : Nat) ^ 32 = 4294967296 := by norm_num
      omega
    exact Nat.bitwise_lt_two_pow (Nat.bitwise_lt_two_pow e16 e8) e2
  rw [show ((2 : Int) ^ 32) = (((2 ^ 32 : Nat)) : Int) from by norm_num]
  rw [← Int.natCast_mod]
  rw [Int.toNat_natCast]
  exact Nat.mod_eq_of_lt hlt

theorem capVal_id {t : SliderState} (hgt : ¬ t.val > ((t.max : ℚ)))
    (hlt : ¬ t.val < ((t.min : ℚ))) : t.capVal = t := by
  unfold SliderState.capVal
  rw [if_neg hgt, if_neg hlt]

theorem setVal_horizontal {s : SliderState} (hvert : s.vertical = false)
    (h0 : s.min = 0) (h255 : s.max = 255) (h1 : s.step = 1) (v : Int)
    (hv0 : 0 ≤ v) (hv255 : v ≤ 255) : (s.setVal v).trueVal = v := by
  unfold SliderState.setVal SliderState.dragDiff
  dsimp only
  simp only [Int.cast_zero, zero_mul, add_zero]
  have hcap : (({ s with val := ((v : Int) : ℚ) } : SliderState)).capVal
      = { s with val := ((v : Int) : ℚ) } := by
    apply capVal_id
    · show ¬ ((v : Int) : ℚ) > ((s.max : ℚ))
      rw [h255]
      exact fun hc => absurd (by exact_mod_cast hc : ((255 : Int)) < v) (by omega)
    · show ¬ ((v : Int) : ℚ) < ((s.min : ℚ))
      rw [h0]
      exact fun hc => absurd (by exact_mod_cast hc : v < ((0 : Int))) (by omega)
  split_ifs with hvcond
  · exact absurd (hvert ▸ hvcond) (by simp)
  · rw [hcap]
    unfold SliderState.trueVal SliderState.stepn
    dsimp only
    rw [h0, h1]
    simp only [Int.cast_zero, sub_zero, Int.cast_one, div_one]
    rw [roundAway_intCast]
    omega

theorem setColorNum_bytes (b0 b1 b2 : Nat) (h0 : b0 < 256) (h1 : b1 < 256)
    (h2 : b2 < 256) (cs : ColorSelectState) :
    ColorSelect.setColorNum (b0 <<< 16 ||| b1 <<< 8 ||| b2) cs =
      ⟨cs.s0.setVal ((b0 : Int)), cs.s1.setVal ((b1 : Int)),
       cs.s2.setVal ((b2 : Int)), cs.input⟩ := by
  obtain ⟨e0, e1, e2⟩ := byte_extract b0 b1 b2 h0 h1 h2
  unfold ColorSelect.setColorNum
  rw [e0, e1, e2]

/-- C4: for every string of six valid uppercase hexadecimal digits,
ColorSelect::setColor succeeds and the hex string derived from the slider
bank afterwards reads back the same six characters. -/
theorem hex_roundtrip (s : List Char) (cs : ColorSelectState) (hwf : csWF cs)
    (hlen : s.length = 6) (hhex : ∀ c ∈ s, isUpperHexC c = true) :
    (ColorSelect.setColorStr s cs).1 = true
    ∧ ColorSelect.str (ColorSelect.setColorStr s cs).2 = s := by
  rcases s with _ | ⟨a, _ | ⟨b, _ | ⟨c, _ | ⟨d, _ | ⟨e, _ | ⟨f, _ | ⟨g, t⟩⟩⟩⟩⟩⟩⟩
  · simp only [List.length_nil] at hlen; omega
  · simp only [List.length_cons, List.length_nil] at hlen; omega
  · simp only [List.length_cons, List.length_nil] at hlen; omega
  · simp only [List.length_cons, List.length_nil] at hlen; omega
  · simp only [List.length_cons, List.length_nil] at hlen; omega
  · simp only [List.length_cons, List.length_nil] at hlen; omega
  rotate_left
  · simp only [List.length_cons] at hlen
    omega
  have ha := hhex a (by simp)
  have hb := hhex b (by simp)
  have hc := hhex c (by simp)
  have hd := hhex d (by simp)
  have he := hhex e (by simp)
  have hf := hhex f (by simp)
  have hva := hx_hexDigitVal a ha
  have hvb := hx_hexDigitVal b hb
  have hvc := hx_hexDigitVal c hc
  have hvd := hx_hexDigitVal d hd
  have hve := hx_hexDigitVal e he
  have hvf := hx_hexDigitVal f hf
  have hg0 : stoi16 ([a, b, c, d, e, f].take 2) =
      some ((16 * hexDigitVal a + hexDigitVal b : Nat) : Int) := by
    rw [show [a, b, c, d, e, f].take 2 = [a, b] from rfl]
    exact stoi16_pair a b ha hb
  have hg1 : stoi16 (([a, b, c, d, e, f].drop 2).take 2) =
      some ((16 * hexDigitVal c + hexDigitVal d : Nat) : Int) := by
    rw [show ([a, b, c, d, e, f].drop 2).take 2 = [c, d] from rfl]
    exact stoi16_pair c d hc hd
  have hg2 : stoi16 (([a, b, c, d, e, f].drop 4).take 2) =
      some ((16 * hexDigitVal e + hexDigitVal f : Nat) : Int) := by
    rw [show ([a, b, c, d, e, f].drop 4).take 2 = [e, f] from rfl]
    exact stoi16_pair e f he hf
  have hset : ColorSelect.setColorStr [a, b, c, d, e, f] cs =
      (true, ColorSelect.setColorNum
        (((Int.lor (Int.lor
            ((((16 * hexDigitVal a + hexDigitVal b : Nat) : Int)) <<< (16 : Int))
            ((((16 * hexDigitVal c + hexDigitVal d : Nat) : Int)) <<< (8 : Int)))
            (((16 * hexDigitVal e + hexDigitVal f : Nat) : Int))) %
          (2 : Int) ^ 32).toNat) cs) := by
    unfold ColorSelect.setColorStr
    rw [if_neg (by simp)]
    rw [hg0, hg1, hg2]
  rw [hset]
  refine ⟨rfl, ?_⟩
  rw [color_to_bytes _ _ _ (by omega) (by omega) (by omega)]
  rw [setColorNum_bytes _ _ _ (by omega) (by omega) (by omega)]
  obtain ⟨⟨w00, w01, w02, w03⟩, ⟨w10, w11, w12, w13⟩, ⟨w20, w21, w22, w23⟩⟩ := hwf
  unfold ColorSelect.str
  dsimp only
  rw [setVal_horizontal w03 w00 w01 w02 _ (by positivity)
    (by exact_mod_cast (by omega : 16 * hexDigitVal a + hexDigitVal b ≤ 255))]
  rw [setVal_horizontal w13 w10 w11 w12 _ (by positivity)
    (by exact_mod_cast (by omega : 16 * hexDigitVal c + hexDigitVal d ≤ 255))]
  rw [setVal_horizontal w23 w20 w21 w22 _ (by positivity)
    (by exact_mod_cast (by omega : 16 * hexDigitVal e + hexDigitVal f ≤ 255))]
  rw [hexPair_byte (hexDigitVal a) hva.2 (hexDigitVal b) hvb.2]
  rw [hexPair_byte (hexDigitVal c) hvc.2 (hexDigitVal d) hvd.2]
  rw [hexPair_byte (hexDigitVal e) hve.2 (hexDigitVal f) hvf.2]
  rw [hva.1, hvb.1, hvc.1, hvd.1, hve.1, hvf.1]
  rfl

theorem hex_roundtrip_witness :
    (ColorSelect.setColorStr (("1A2B3C".data)) ColorSelect.init).1 = true
    ∧ ColorSelect.str
        (ColorSelect.setColorStr (("1A2B3C".data)) ColorSelect.init).2 =
      ("1A2B3C".data) :=
  hex_roundtrip (("1A2B3C".data)) ColorSelect.init (by decide) (by decide)
    (by decide)

/-- C5 counterexample: the six-character input 12345Z contains the non-hex
character Z, yet setColor reports success (std::stoi parses the greedy
prefix 5 of the last group), refuting the claim that every input containing
a non-hex character is rejected. -/
theorem setcolor_reject_cex :
    (ColorSelect.setColorStr (("12345Z".data)) ColorSelect.init).1 = true
    ∧ ('Z' ∈ ("12345Z".data) ∧ isHexDigitC 'Z' = false) := by
  exact ⟨rfl, by decide⟩

/-- C5 (amended): setColor on a hex string reports failure with all slider
and text state unchanged (the whole ColorSelect state, the owned TextInput
included, is returned as it was) exactly when the input is shorter than 6
characters or some two-character channel group has no parseable prefix for
std::stoi in base 16 (after optional whitespace and sign, no leading hex
digit); in particular any string shorter than 6, such as ZZ, is rejected
with slider and text state unchanged.  The operation never touches the
TextInput at all, also on success.  Malformed six-character inputs whose
groups all start with a hex digit, such as 12345Z, are accepted (see the
counterexample). -/
theorem setcolor_reject (s : List Char) (cs : ColorSelectState) :
    ((ColorSelect.setColorStr s cs).1 = false ↔
      (s.length < 6 ∨ stoi16 (s.take 2) = none ∨
        stoi16 ((s.drop 2).take 2) = none ∨
        stoi16 ((s.drop 4).take 2) = none))
    ∧ ((ColorSelect.setColorStr s cs).1 = false →
        (ColorSelect.setColorStr s cs).2 = cs)
    ∧ ((ColorSelect.setColorStr s cs).2).input = cs.input
    ∧ ColorSelect.setColorStr ['Z', 'Z'] cs = (false, cs) := by
  refine ⟨?_, ?_, ?_, rfl⟩
  · unfold ColorSelect.setColorStr
    split
    · rename_i hshort
      simp [hshort]
    · rename_i hlong
      cases h0 : stoi16 (s.take 2) <;>
        cases h1 : stoi16 ((s.drop 2).take 2) <;>
        cases h2 : stoi16 ((s.drop 4).take 2) <;>
        simp [hlong]
  · unfold ColorSelect.setColorStr
    split
    · intro _
      rfl
    · cases h0 : stoi16 (s.take 2) <;>
        cases h1 : stoi16 ((s.drop 2).take 2) <;>
        cases h2 : stoi16 ((s.drop 4).take 2) <;>
        simp
  · unfold ColorSelect.setColorStr
    split
    · rfl
    · cases h0 : stoi16 (s.take 2) <;>
        cases h1 : stoi16 ((s.drop 2).take 2) <;>
        cases h2 : stoi16 ((s.drop 4).take 2) <;>
        rfl

theorem setcolor_reject_witness :
    ((ColorSelect.setColorStr ['Z', 'Z'] ColorSelect.init).1 = false ↔
      ((['Z', 'Z'] : List Char).length < 6 ∨
        stoi16 ((['Z', 'Z'] : List Char).take 2) = none ∨
        stoi16 (((['Z', 'Z'] : List Char).drop 2).take 2) = none ∨
        stoi16 (((['Z', 'Z'] : List Char).drop 4).take 2) = none))
    ∧ (ColorSelect.setColorStr ['Z', 'Z'] ColorSelect.init).2 =
        ColorSelect.init
    ∧ ((ColorSelect.setColorStr ['Z', 'Z'] ColorSelect.init).2).input =
        ColorSelect.init.input
    ∧ ColorSelect.setColorStr ['Z', 'Z'] ColorSelect.init =
        (false, ColorSelect.init) :=
  ⟨(setcolor_reject ['Z', 'Z'] ColorSelect.init).1,
   (setcolor_reject ['Z', 'Z'] ColorSelect.init).2.1 rfl,
   (setcolor_reject ['Z', 'Z'] ColorSelect.init).2.2.1,
   (setcolor_reject ['Z', 'Z'] ColorSelect.init).2.2.2⟩

end Sdlw

